import Mathlib

/-!
Verification of the auto-migration engine of `src/backend/src/database.py`
(PacketPlayground backend data-access layer).

The development shallowly embeds the pieces of `database.py` that the
claims are about:

* the SQLAlchemy/alembic type and operation values carried by
  `AlterColumnOp` (structure `AlterColumnOp`, inductive `SqlType`,
  inductive `PyVal` for the Python values `False`/`True`/`None`/`text(...)`
  used in default-value slots);
* the operation transformer `add_using_clause` (lines 103-149);
* the PostgreSQL value semantics of the two generated `USING` casting
  expressions (`evalTextToIntCast`, `evalIntToUuidCast`);
* the URL builder `get_database_url` (lines 33-47) together with the way
  SQLAlchemy derives the dialect name from the URL (`dialectOfUrl`);
* the work-queue flattening/apply loop of `GenericDAL.__update_schema`
  (lines 161-200): `flattenLoop` extracts the plan the loop emits,
  `migLoop` threads the database state through the invoked operations,
  `update_schema` wraps the loop in the `begin`/`commit`/`rollback`
  control flow of the source;
* the constructor `GenericDAL.__init__` initialization guard
  (lines 94-100) as a transition function on the class-level state
  (`genericDAL_init`);
* the accessors `remove` / `async_remove` (lines 223-227, 280-284).

Database side effects are represented by explicit state passing: a DDL
invocation is an arbitrary function `Operation → σ → Except String σ`,
and the transaction `begin`/`commit`/`rollback` bookkeeping is recorded
in a `MigResult` trace.
-/

/-- SQLAlchemy column-type instances as they occur in this program
(`Integer`/`INTEGER`, `Text`, postgresql `UUID`, ...).  `isinstance`
checks in the source are modelled by matching on the constructor. -/
inductive SqlType
  | integerT
  | textT
  | uuidT
  | realT
  | jsonT
  | timestampT
  | stringT
deriving DecidableEq, Repr

/-- Python values used in the default-value slots of `AlterColumnOp`:
`False` (alembic's "no change" sentinel), `True` ("an existing default is
present"), `None` ("no default" / "drop the default"), and a
`sqlalchemy.text(...)` SQL fragment. -/
inductive PyVal
  | pyFalse
  | pyTrue
  | pyNone
  | sqlText (s : String)
deriving DecidableEq, Repr

/-- alembic's `AlterColumnOp` restricted to the keyword arguments this
program reads or writes.  Unpassed arguments keep alembic's defaults:
`schema=None`, `existing_type=None`, `existing_server_default=False`,
`existing_nullable=None`, `existing_comment=False`, `modify_type=None`,
`modify_server_default=False`, and no `postgresql_using` clause. -/
structure AlterColumnOp where
  table_name : String
  column_name : String
  schema : Option String
  existing_type : Option SqlType
  existing_server_default : PyVal
  existing_nullable : Option Bool
  existing_comment : PyVal
  modify_type : Option SqlType
  modify_server_default : PyVal
  postgresql_using : Option String
deriving DecidableEq, Repr

/-- A declared column: name and semantic type (used by the diff model). -/
structure ColDef where
  name : String
  ctype : SqlType
deriving DecidableEq, Repr

/-- A declared table: name and columns (used by the diff model). -/
structure TableDef where
  name : String
  cols : List ColDef
deriving DecidableEq, Repr

/-- A leaf migration operation as invoked by the executor loop.
`alterColumn` is the case the transformer rewrites; the remaining
constructors are the other alembic operations, which the loop invokes
unchanged. -/
inductive Operation
  | alterColumn (op : AlterColumnOp)
  | createTable (t : TableDef)
  | addColumn (table : String) (c : ColDef)
  | dropColumn (table : String) (c : ColDef)
  | otherOp (descr : String)
deriving DecidableEq, Repr

/-- The operation tree handed to the executor: alembic's `UpgradeOps`
(and any other container exposing `.ops`) is `group`, a
`ModifyTableOps` container is `modifyTable`, and individual operations
are `leaf`s. -/
inductive OpTree
  | group (ops : List OpTree)
  | modifyTable (table : String) (schema : Option String) (ops : List OpTree)
  | leaf (op : Operation)
deriving Repr

/-- `isinstance(t, Integer)` on an optional carried type. -/
def isIntegerType : Option SqlType → Bool
  | some SqlType.integerT => true
  | _ => false

/-- `isinstance(t, Text)` on an optional carried type. -/
def isTextType : Option SqlType → Bool
  | some SqlType.textT => true
  | _ => false

/-- `isinstance(t, UUID)` on an optional carried type. -/
def isUuidType : Option SqlType → Bool
  | some SqlType.uuidT => true
  | _ => false

/-- The text→integer `USING` clause built at line 105 of `database.py`:
`COALESCE(NULLIF(REGEXP_REPLACE(col, '[^0-9]', '', 'g'), ''), '0')::integer`. -/
def textToIntUsing (col : String) : String :=
  "COALESCE(NULLIF(REGEXP_REPLACE(" ++ col ++
    ", \x27[^0-9]\x27, \x27\x27, \x27g\x27), \x27\x27), \x270\x27)::integer"

/-- The integer→UUID `USING` clause built at line 118 of `database.py`:
`('00000000-0000-0000-0000-' || lpad(to_hex(col), 12, '0'))::uuid`. -/
def intToUuidUsing (col : String) : String :=
  "(\x2700000000-0000-0000-0000-\x27 || lpad(to_hex(" ++ col ++ "), 12, \x270\x27))::uuid"

/-- PostgreSQL `REGEXP_REPLACE(s, '[^0-9]', '', 'g')`: delete every
character outside `0`-`9`. -/
def regexpReplaceNonDigits (s : String) : String :=
  String.mk (s.data.filter Char.isDigit)

/-- PostgreSQL `NULLIF(s, '')`: `NULL` when `s` is empty. -/
def nullifEmpty (s : String) : Option String :=
  if s = "" then none else some s

/-- PostgreSQL `COALESCE` on a nullable string. -/
def coalesceStr (o : Option String) (d : String) : String :=
  o.getD d

/-- PostgreSQL `::integer` on a string of decimal digits. -/
def digitsToNat (s : String) : Nat :=
  s.data.foldl (fun a c => a * 10 + (c.toNat - 48)) 0

/-- Value semantics of the clause `textToIntUsing col` applied to the
stored text value `s`: strip every non-digit character, map an empty
result to `'0'`, cast to integer. -/
def evalTextToIntCast (s : String) : Nat :=
  digitsToNat (coalesceStr (nullifEmpty (regexpReplaceNonDigits s)) "0")

/-- Lower-case hexadecimal digit. -/
def hexDigitChar (d : Nat) : Char :=
  if d < 10 then Char.ofNat (48 + d) else Char.ofNat (87 + d)

/-- Accumulator loop behind `to_hex`; the first argument is fuel (any
value `≥ n` makes the recursion run to completion, since `n / 16 < n`
for `n > 0`). -/
def toHexAux : Nat → Nat → List Char → List Char
  | 0, _, acc => acc
  | f + 1, n, acc =>
    if n = 0 then acc else toHexAux f (n / 16) (hexDigitChar (n % 16) :: acc)

/-- PostgreSQL `to_hex(n)`: lower-case hexadecimal representation. -/
def to_hex (n : Nat) : String :=
  if n = 0 then "0" else String.mk (toHexAux (n + 1) n [])

/-- PostgreSQL `lpad(s, len, c)`: left-pad with `c` up to `len`
characters, truncating on the right when `s` is longer. -/
def lpad (s : String) (len : Nat) (c : Char) : String :=
  if len ≤ s.length then String.mk (s.data.take len)
  else String.mk (List.replicate (len - s.length) c ++ s.data)

/-- Value semantics of the clause `intToUuidUsing col` applied to the
stored integer value `n`: the fixed prefix followed by the 12-digit
zero-padded hexadecimal representation of `n`. -/
def evalIntToUuidCast (n : Nat) : String :=
  "00000000-0000-0000-0000-" ++ lpad (to_hex n) 12 (Char.ofNat 48)

/-- The operation transformer `add_using_clause` (lines 103-149 of
`database.py`).  Returns either a single rewritten/unchanged operation
or — in the integer→UUID case — the list of three operations the source
builds. -/
def add_using_clause (op : AlterColumnOp) : Sum AlterColumnOp (List AlterColumnOp) :=
  if isIntegerType op.modify_type && isTextType op.existing_type then
    Sum.inl
      { table_name := op.table_name
        column_name := op.column_name
        schema := op.schema
        existing_type := op.existing_type
        existing_server_default := op.existing_server_default
        existing_nullable := op.existing_nullable
        existing_comment := op.existing_comment
        modify_type := op.modify_type
        modify_server_default := PyVal.pyFalse
        postgresql_using := some (textToIntUsing op.column_name) }
  else if isUuidType op.modify_type && isIntegerType op.existing_type then
    Sum.inr
      [ { table_name := op.table_name
          column_name := op.column_name
          schema := none
          existing_type := op.existing_type
          existing_server_default := PyVal.pyTrue
          existing_nullable := none
          existing_comment := PyVal.pyFalse
          modify_type := none
          modify_server_default := PyVal.pyNone
          postgresql_using := none },
        { table_name := op.table_name
          column_name := op.column_name
          schema := none
          existing_type := op.existing_type
          existing_server_default := PyVal.pyFalse
          existing_nullable := none
          existing_comment := PyVal.pyFalse
          modify_type := op.modify_type
          modify_server_default := PyVal.pyFalse
          postgresql_using := some (intToUuidUsing op.column_name) },
        { table_name := op.table_name
          column_name := op.column_name
          schema := none
          existing_type := op.modify_type
          existing_server_default := PyVal.pyNone
          existing_nullable := none
          existing_comment := PyVal.pyFalse
          modify_type := none
          modify_server_default := PyVal.sqlText "gen_random_uuid()"
          postgresql_using := none } ]
  else
    Sum.inl op

/-- `os.getenv(key, default)` over an explicit process environment. -/
def getenv (env : List (String × String)) (key dflt : String) : String :=
  match env.find? (fun p => p.1 == key) with
  | some p => p.2
  | none => dflt

/-- `get_database_url` (lines 33-47 of `database.py`). -/
def get_database_url (env : List (String × String)) (async_driver : Bool) : String :=
  let db_host := getenv env "DB_HOST" "localhost"
  let db_user := getenv env "DB_USER" "postgres"
  let db_pass := getenv env "DB_PASS" "postgres"
  let db_port := getenv env "DB_PORT" "5432"
  let db_name := getenv env "DB_NAME" "postgres"
  let scheme := "postgresql"
  let driver := if async_driver then "asyncpg" else "psycopg2"
  scheme ++ "+" ++ driver ++ "://" ++ db_user ++ ":" ++ db_pass ++ "@" ++
    db_host ++ ":" ++ db_port ++ "/" ++ db_name

/-- How SQLAlchemy's `create_engine` derives `engine.name` from a URL:
the dialect part of the URL, i.e. what stands before the first `:`,
truncated at a `+` driver separator. -/
def dialectOfUrl (url : String) : String :=
  String.mk ((url.data.takeWhile (fun c => c != ':')).takeWhile (fun c => c != '+'))

/-- `use_batch = GenericDAL.SyncEngine.name == "sqlite"` (line 173),
where `SyncEngine` was created from `get_database_url(async_driver=False)`. -/
def use_batch (env : List (String × String)) : Bool :=
  dialectOfUrl (get_database_url env false) == "sqlite"

/-- The children a container node exposes through its `.ops` attribute. -/
def childrenOf : OpTree → List OpTree
  | OpTree.group l => l
  | OpTree.modifyTable _ _ l => l
  | OpTree.leaf _ => []

/-- The leaf operations among a list of nodes, in order (used by the
batch branch, which invokes a `ModifyTableOps`'s operations directly). -/
def leafOps : List OpTree → List Operation
  | [] => []
  | OpTree.leaf op :: r => op :: leafOps r
  | _ :: r => leafOps r

/-- The leaf operations at the current queue level, in queue order. -/
def levelLeaves : List OpTree → List Operation
  | [] => []
  | OpTree.leaf op :: r => op :: levelLeaves r
  | _ :: r => levelLeaves r

/-- The concatenated children of the current queue level, in queue order. -/
def levelChildren : List OpTree → List OpTree
  | [] => []
  | t :: r => childrenOf t ++ levelChildren r

mutual

/-- Number of nodes of a tree (for termination). -/
def treeSize : OpTree → Nat
  | OpTree.leaf _ => 1
  | OpTree.group l => 1 + forestSize l
  | OpTree.modifyTable _ _ l => 1 + forestSize l

/-- Number of nodes of a forest (for termination). -/
def forestSize : List OpTree → Nat
  | [] => 0
  | t :: r => treeSize t + forestSize r

end

theorem forestSize_append (a b : List OpTree) :
    forestSize (a ++ b) = forestSize a + forestSize b := by
  induction a with
  | nil => simp [forestSize]
  | cons t r ih => simp [forestSize, ih]; omega

theorem treeSize_pos (t : OpTree) : 0 < treeSize t := by
  cases t <;> simp [treeSize]

theorem forestSize_childrenOf_lt (t : OpTree) : forestSize (childrenOf t) < treeSize t := by
  cases t <;> simp [childrenOf, treeSize, forestSize]

theorem forestSize_levelChildren_le (q : List OpTree) :
    forestSize (levelChildren q) ≤ forestSize q := by
  induction q with
  | nil => simp [levelChildren]
  | cons t r ih =>
    have h := forestSize_childrenOf_lt t
    simp [levelChildren, forestSize, forestSize_append]
    omega

/-- The mutable work-queue loop of `GenericDAL.__update_schema`
(lines 174-194), restricted to what it emits: `stack.pop(0)` takes the
head, containers are expanded by `stack.extend(elem.ops)` onto the back,
leaves are appended to the plan in encounter order.  The second
component counts how many times the `batch_alter_table` branch ran. -/
def flattenLoop (ub : Bool) : List OpTree → List Operation × Nat
  | [] => ([], 0)
  | OpTree.modifyTable _ _ ops :: rest =>
    if ub then
      let r := flattenLoop ub rest
      (leafOps ops ++ r.1, r.2 + 1)
    else
      flattenLoop ub (rest ++ ops)
  | OpTree.group ops :: rest => flattenLoop ub (rest ++ ops)
  | OpTree.leaf op :: rest =>
    let r := flattenLoop ub rest
    (op :: r.1, r.2)
termination_by q => forestSize q
decreasing_by
  all_goals simp [forestSize, forestSize_append, treeSize]
  all_goals omega

/-- Pure, side-effect-free breadth-first traversal of a forest: the
leaves of the current level in order, then the traversal of the
concatenated children. -/
def bfs (q : List OpTree) : List Operation :=
  match q with
  | [] => []
  | t :: r =>
    levelLeaves (t :: r) ++ bfs (levelChildren (t :: r))
termination_by forestSize q
decreasing_by
  have h1 := forestSize_childrenOf_lt t
  have h2 := forestSize_levelChildren_le r
  simp [levelChildren, forestSize, forestSize_append]
  omega

/-- alembic's `OpContainer.is_empty()` (`not self.ops`), as called on
`migrations.upgrade_ops` at line 167. -/
def is_empty : OpTree → Bool
  | OpTree.group l => l.isEmpty
  | OpTree.modifyTable _ _ l => l.isEmpty
  | OpTree.leaf _ => false

/-- What the loop body (lines 186-194) invokes for one popped leaf:
an `AlterColumnOp` goes through `add_using_clause` first and the one
operation or the list of operations it returns is invoked in order;
every other operation is invoked directly. -/
def transformLeaf : Operation → List Operation
  | Operation.alterColumn a =>
    match add_using_clause a with
    | Sum.inl x => [Operation.alterColumn x]
    | Sum.inr xs => xs.map Operation.alterColumn
  | op => [op]

/-- Sequential invocation of a list of operations against the database
state, stopping at the first failure.  `ap` is the semantics of one DDL
invocation (`operations.invoke`). -/
def applyOps (ap : Operation → σ → Except String σ) :
    List Operation → σ → Except String σ
  | [], s => Except.ok s
  | o :: rest, s =>
    match ap o s with
    | Except.ok s2 => applyOps ap rest s2
    | Except.error e => Except.error e

/-- Sequencing of two fallible state transformers. -/
def andThen (r : Except String σ) (f : σ → Except String σ) : Except String σ :=
  match r with
  | Except.ok s => f s
  | Except.error e => Except.error e

/-- The work-queue loop of lines 174-194 with the database state
threaded through the invoked DDL: containers are expanded onto the back
of the queue, an `AlterColumnOp` leaf is transformed by
`add_using_clause` and the result invoked, other leaves are invoked
directly; in batch mode a `ModifyTableOps` node's operations are invoked
immediately through `batch_alter_table` (without transformation). -/
def migLoop (ap : Operation → σ → Except String σ) (ub : Bool) :
    List OpTree → σ → Except String σ
  | [], s => Except.ok s
  | OpTree.modifyTable _ _ ops :: rest, s =>
    if ub then
      andThen (applyOps ap (leafOps ops) s) (fun s2 => migLoop ap ub rest s2)
    else
      migLoop ap ub (rest ++ ops) s
  | OpTree.group ops :: rest, s => migLoop ap ub (rest ++ ops) s
  | OpTree.leaf op :: rest, s =>
    andThen (applyOps ap (transformLeaf op) s) (fun s2 => migLoop ap ub rest s2)
termination_by q => forestSize q
decreasing_by
  all_goals simp [forestSize, forestSize_append, treeSize]
  all_goals omega

/-- Observable outcome of one run of the migration block of
`GenericDAL.__update_schema` (lines 161-200): the final database state,
how many times the administrative transaction was begun / committed /
rolled back, the failure recorded by the `except` branch (if any), and
whether an exception propagated to the caller. -/
structure MigResult (σ : Type) where
  dbState : σ
  begins : Nat
  commits : Nat
  rollbacks : Nat
  loggedError : Option String
  raised : Bool
deriving Repr

/-- The migration block of `GenericDAL.__update_schema` (lines 161-200):
`trans = conn.begin()`; inside the `try`, the produced operation tree is
applied by the work-queue loop unless `upgrade_ops.is_empty()`; then
`trans.commit()`.  On any exception the except branch rolls the
transaction back (restoring the pre-transaction state `s0`), records the
error, and does not re-raise. -/
def update_schema (ap : Operation → σ → Except String σ) (ub : Bool)
    (tree : OpTree) (s0 : σ) : MigResult σ :=
  match (if is_empty tree then Except.ok s0 else migLoop ap ub [tree] s0) with
  | Except.ok s =>
    { dbState := s, begins := 1, commits := 1, rollbacks := 0
      loggedError := none, raised := false }
  | Except.error e =>
    { dbState := s0, begins := 1, commits := 0, rollbacks := 1
      loggedError := some e, raised := false }

/-- The flattened, transformer-rewritten plan the loop invokes, in
invocation order (meaningful for `ub = false`, the only value `use_batch`
takes in this program). -/
def planOf (q : List OpTree) : List Operation :=
  ((flattenLoop false q).1).flatMap transformLeaf

/-- An `AlterColumnOp` as the diff engine emits it for a column whose
type changed (old type `et`, new type `mt`). -/
def mkAlterTypeOp (table col : String) (et mt : SqlType) : AlterColumnOp :=
  { table_name := table
    column_name := col
    schema := none
    existing_type := some et
    existing_server_default := PyVal.pyFalse
    existing_nullable := none
    existing_comment := PyVal.pyFalse
    modify_type := some mt
    modify_server_default := PyVal.pyFalse
    postgresql_using := none }

/-- Modelled from the spec: the per-table column comparison of the Diff
Engine (§4.3, steps 2 and its ordering rule) — the library call
`produce_migrations` is not part of this repository's sources.  Columns
declared but absent live become `AddColumn`; columns present in both
with a differing type become `AlterColumnType`; columns live but absent
declared become `DropColumn`; `AddColumn` before `AlterColumn` before
`DropColumn`. -/
def diffColumns (table : String) (decl live : List ColDef) : List Operation :=
  let adds := (decl.filter
      (fun c => (live.find? (fun lc => lc.name == c.name)).isNone)).map
      (fun c => Operation.addColumn table c)
  let alters := decl.filterMap (fun c =>
    match live.find? (fun lc => lc.name == c.name) with
    | some lc =>
      if lc.ctype == c.ctype then none
      else some (Operation.alterColumn (mkAlterTypeOp table c.name lc.ctype c.ctype))
    | none => none)
  let drops := (live.filter
      (fun lc => (decl.find? (fun c => c.name == lc.name)).isNone)).map
      (fun lc => Operation.dropColumn table lc)
  adds ++ alters ++ drops

/-- Modelled from the spec: the Diff Engine (§4.3) — alembic's
`produce_migrations` is not part of this repository's sources.  Declared
tables absent live become `CreateTable` leaves; tables present in both
get their column differences grouped under a `modifyTable` node (omitted
when there is none); live tables absent from the declared set are never
dropped; tables appear in declaration order. -/
def produceMigrations (declared live : List TableDef) : OpTree :=
  OpTree.group (declared.filterMap (fun t =>
    match live.find? (fun lt => lt.name == t.name) with
    | none => some (OpTree.leaf (Operation.createTable t))
    | some lt =>
      let ops := diffColumns t.name t.cols lt.cols
      if ops.isEmpty then none
      else some (OpTree.modifyTable t.name none (ops.map OpTree.leaf))))

/-- The attribute names the class body of `GenericDAL` defines
(lines 58-285), after Python's name mangling of double-underscore
attributes.  `_GenericDAL__init_cron` is not among them, and the module
defines no such attribute elsewhere. -/
def genericDALAttributes : List String :=
  [ "initialized", "lock", "SyncEngine", "SyncSession", "AsyncEngine",
    "AsyncSession", "__init__", "_GenericDAL__update_schema",
    "_GenericDAL__seed_database", "add", "update", "remove",
    "async_add", "async_get", "async_update", "async_remove" ]

/-- The class-level state of `GenericDAL` that the initialization guard
reads and writes, plus a counter of how many times the migration
pipeline (`__update_schema` + `__seed_database`) has run. -/
structure DALClassState where
  initialized : Bool
  pipelineRuns : Nat
deriving DecidableEq, Repr

/-- Outcome of one `GenericDAL()` construction: normal return, or an
`AttributeError` naming the missing attribute, with the class state at
the moment the exception propagates. -/
inductive CtorResult
  | ok (st : DALClassState)
  | attributeError (missing : String) (st : DALClassState)
deriving DecidableEq, Repr

/-- The guarded block of `GenericDAL.__init__` (lines 94-100), as a
transition on the class-level state (single execution context, so the
outer test and the double-checked test under the lock coincide): when
`initialized` is unset, `__update_schema` and `__seed_database` run,
then `GenericDAL.__init_cron(self)` looks up the (mangled) attribute
`_GenericDAL__init_cron`; only if that lookup succeeds does
`initialized = True` execute. -/
def genericDAL_init (st : DALClassState) : CtorResult :=
  if st.initialized then CtorResult.ok st
  else
    let st1 : DALClassState :=
      { initialized := st.initialized, pipelineRuns := st.pipelineRuns + 1 }
    if genericDALAttributes.contains "_GenericDAL__init_cron" then
      CtorResult.ok { initialized := true, pipelineRuns := st1.pipelineRuns }
    else
      CtorResult.attributeError "_GenericDAL__init_cron" st1

/-- `GenericDAL.remove` (lines 223-227): delete the entity and commit —
modelled as the fallible state transformer `deleteCommit` — then
`return True`.  A failure surfaces as the raised error. -/
def remove (deleteCommit : σ → Except String σ) (s : σ) :
    Except String (σ × Bool) :=
  match deleteCommit s with
  | Except.ok s2 => Except.ok (s2, true)
  | Except.error e => Except.error e

/-- `GenericDAL.async_remove` (lines 280-284): same shape as `remove`
over the asynchronous session. -/
def async_remove (deleteCommit : σ → Except String σ) (s : σ) :
    Except String (σ × Bool) :=
  match deleteCommit s with
  | Except.ok s2 => Except.ok (s2, true)
  | Except.error e => Except.error e

theorem flattenLoop_nil (ub : Bool) : flattenLoop ub [] = ([], 0) := by
  simp [flattenLoop]

theorem flattenLoop_leaf (ub : Bool) (op : Operation) (rest : List OpTree) :
    flattenLoop ub (OpTree.leaf op :: rest) =
      (op :: (flattenLoop ub rest).1, (flattenLoop ub rest).2) := by
  simp [flattenLoop]

theorem flattenLoop_group (ub : Bool) (ops rest : List OpTree) :
    flattenLoop ub (OpTree.group ops :: rest) = flattenLoop ub (rest ++ ops) := by
  simp [flattenLoop]

theorem flattenLoop_mt_false (tn : String) (sc : Option String)
    (ops rest : List OpTree) :
    flattenLoop false (OpTree.modifyTable tn sc ops :: rest) =
      flattenLoop false (rest ++ ops) := by
  simp [flattenLoop]

theorem levelLeaves_append (a b : List OpTree) :
    levelLeaves (a ++ b) = levelLeaves a ++ levelLeaves b := by
  induction a with
  | nil => simp [levelLeaves]
  | cons t r ih => cases t <;> simp [levelLeaves, ih]

theorem levelChildren_append (a b : List OpTree) :
    levelChildren (a ++ b) = levelChildren a ++ levelChildren b := by
  induction a with
  | nil => simp [levelChildren]
  | cons t r ih => simp [levelChildren, ih]

/-- Key invariant of the work-queue loop: processing `a ++ b` first
emits the leaves of `a` in order, then continues with `b` followed by
the children of `a` (which the loop pushed onto the back). -/
theorem flatten_shift :
    ∀ (n : Nat) (a b : List OpTree), forestSize a + forestSize b ≤ n →
      (flattenLoop false (a ++ b)).1 =
        levelLeaves a ++ (flattenLoop false (b ++ levelChildren a)).1 := by
  intro n
  induction n with
  | zero =>
    intro a b h
    cases a with
    | nil => simp [levelLeaves, levelChildren]
    | cons t r =>
      exfalso
      have := treeSize_pos t
      simp [forestSize] at h
      omega
  | succ n ih =>
    intro a b h
    cases a with
    | nil => simp [levelLeaves, levelChildren]
    | cons t r =>
      cases t with
      | leaf op =>
        have hsz : forestSize r + forestSize b ≤ n := by
          simp [forestSize, treeSize] at h
          omega
        simp only [List.cons_append, flattenLoop_leaf]
        rw [ih r b hsz]
        simp [levelLeaves, levelChildren, childrenOf]
      | group ops =>
        have hsz : forestSize r + forestSize (b ++ ops) ≤ n := by
          simp [forestSize, treeSize, forestSize_append] at h ⊢
          omega
        simp only [List.cons_append, flattenLoop_group]
        have : (r ++ b) ++ ops = r ++ (b ++ ops) := by simp
        rw [this, ih r (b ++ ops) hsz]
        simp [levelLeaves, levelChildren, childrenOf]
      | modifyTable tn sc ops =>
        have hsz : forestSize r + forestSize (b ++ ops) ≤ n := by
          simp [forestSize, treeSize, forestSize_append] at h ⊢
          omega
        simp only [List.cons_append, flattenLoop_mt_false]
        have : (r ++ b) ++ ops = r ++ (b ++ ops) := by simp
        rw [this, ih r (b ++ ops) hsz]
        simp [levelLeaves, levelChildren, childrenOf]

/-- Level decomposition of the loop's plan. -/
theorem flatten_levels (q : List OpTree) :
    (flattenLoop false q).1 =
      levelLeaves q ++ (flattenLoop false (levelChildren q)).1 := by
  have h := flatten_shift (forestSize q) q [] (by simp [forestSize])
  simpa using h

theorem forestSize_levelChildren_lt (t : OpTree) (r : List OpTree) :
    forestSize (levelChildren (t :: r)) < forestSize (t :: r) := by
  have h1 := forestSize_childrenOf_lt t
  have h2 := forestSize_levelChildren_le r
  simp [levelChildren, forestSize, forestSize_append]
  omega

/-- The work-queue loop emits exactly the breadth-first traversal. -/
theorem flatten_eq_bfs_aux :
    ∀ (n : Nat) (q : List OpTree), forestSize q ≤ n →
      (flattenLoop false q).1 = bfs q := by
  intro n
  induction n with
  | zero =>
    intro q h
    cases q with
    | nil => simp [flattenLoop_nil, bfs]
    | cons t r =>
      exfalso
      have := treeSize_pos t
      simp [forestSize] at h
      omega
  | succ n ih =>
    intro q h
    cases q with
    | nil => simp [flattenLoop_nil, bfs]
    | cons t r =>
      rw [flatten_levels]
      have hlt := forestSize_levelChildren_lt t r
      rw [ih (levelChildren (t :: r)) (by omega)]
      rw [bfs]

/-- With `ub = false` the batch branch never runs. -/
theorem flatten_count_zero_aux :
    ∀ (n : Nat) (q : List OpTree), forestSize q ≤ n →
      (flattenLoop false q).2 = 0 := by
  intro n
  induction n with
  | zero =>
    intro q h
    cases q with
    | nil => simp [flattenLoop_nil]
    | cons t r =>
      exfalso
      have := treeSize_pos t
      simp [forestSize] at h
      omega
  | succ n ih =>
    intro q h
    cases q with
    | nil => simp [flattenLoop_nil]
    | cons t r =>
      cases t with
      | leaf op =>
        rw [flattenLoop_leaf]
        exact ih r (by simp [forestSize, treeSize] at h; omega)
      | group ops =>
        rw [flattenLoop_group]
        refine ih (r ++ ops) ?_
        simp [forestSize_append]
        simp [forestSize, treeSize, forestSize_append] at h
        omega
      | modifyTable tn sc ops =>
        rw [flattenLoop_mt_false]
        refine ih (r ++ ops) ?_
        simp [forestSize_append]
        simp [forestSize, treeSize, forestSize_append] at h
        omega

theorem applyOps_append (ap : Operation → σ → Except String σ)
    (xs ys : List Operation) (s : σ) :
    applyOps ap (xs ++ ys) s = andThen (applyOps ap xs s) (applyOps ap ys) := by
  induction xs generalizing s with
  | nil => simp [applyOps, andThen]
  | cons o rest ih =>
    simp only [List.cons_append, applyOps]
    cases ap o s with
    | ok s2 => simp [andThen, ih]
    | error e => simp [andThen]

theorem migLoop_nil (ap : Operation → σ → Except String σ) (ub : Bool) (s : σ) :
    migLoop ap ub [] s = Except.ok s := by
  simp [migLoop]

theorem migLoop_leaf (ap : Operation → σ → Except String σ) (ub : Bool)
    (op : Operation) (rest : List OpTree) (s : σ) :
    migLoop ap ub (OpTree.leaf op :: rest) s =
      andThen (applyOps ap (transformLeaf op) s) (fun s2 => migLoop ap ub rest s2) := by
  simp [migLoop]

theorem migLoop_group (ap : Operation → σ → Except String σ) (ub : Bool)
    (ops rest : List OpTree) (s : σ) :
    migLoop ap ub (OpTree.group ops :: rest) s = migLoop ap ub (rest ++ ops) s := by
  simp [migLoop]

theorem migLoop_mt_false (ap : Operation → σ → Except String σ)
    (tn : String) (sc : Option String) (ops rest : List OpTree) (s : σ) :
    migLoop ap false (OpTree.modifyTable tn sc ops :: rest) s =
      migLoop ap false (rest ++ ops) s := by
  simp [migLoop]

/-- The transformed leaves of the current queue level, in order. -/
def levelPlan (q : List OpTree) : List Operation :=
  (levelLeaves q).flatMap transformLeaf

/-- Key invariant of the state-threading loop, mirroring
`flatten_shift`: running the loop on `a ++ b` first invokes the
transformed leaves of `a` in order, then continues with `b` followed by
the children of `a`. -/
theorem migLoop_shift (ap : Operation → σ → Except String σ) :
    ∀ (n : Nat) (a b : List OpTree) (s : σ), forestSize a + forestSize b ≤ n →
      migLoop ap false (a ++ b) s =
        andThen (applyOps ap (levelPlan a) s)
          (fun s2 => migLoop ap false (b ++ levelChildren a) s2) := by
  intro n
  induction n with
  | zero =>
    intro a b s h
    cases a with
    | nil => simp [levelPlan, levelLeaves, levelChildren, applyOps, andThen]
    | cons t r =>
      exfalso
      have := treeSize_pos t
      simp [forestSize] at h
      omega
  | succ n ih =>
    intro a b s h
    cases a with
    | nil => simp [levelPlan, levelLeaves, levelChildren, applyOps, andThen]
    | cons t r =>
      cases t with
      | leaf op =>
        have hsz : forestSize r + forestSize b ≤ n := by
          simp [forestSize, treeSize] at h
          omega
        simp only [List.cons_append, migLoop_leaf]
        have hplan : levelPlan (OpTree.leaf op :: r) =
            transformLeaf op ++ levelPlan r := by
          simp [levelPlan, levelLeaves]
        rw [hplan, applyOps_append]
        cases applyOps ap (transformLeaf op) s with
        | ok s2 =>
          simp only [andThen]
          rw [ih r b s2 hsz]
          simp [levelChildren, childrenOf, andThen]
        | error e => simp [andThen]
      | group ops =>
        have hsz : forestSize r + forestSize (b ++ ops) ≤ n := by
          simp [forestSize, treeSize, forestSize_append] at h ⊢
          omega
        simp only [List.cons_append, migLoop_group]
        have hq : (r ++ b) ++ ops = r ++ (b ++ ops) := by simp
        rw [hq, ih r (b ++ ops) s hsz]
        have hplan : levelPlan (OpTree.group ops :: r) = levelPlan r := by
          simp [levelPlan, levelLeaves]
        rw [hplan]
        simp [levelChildren, childrenOf, List.append_assoc]
      | modifyTable tn sc ops =>
        have hsz : forestSize r + forestSize (b ++ ops) ≤ n := by
          simp [forestSize, treeSize, forestSize_append] at h ⊢
          omega
        simp only [List.cons_append, migLoop_mt_false]
        have hq : (r ++ b) ++ ops = r ++ (b ++ ops) := by simp
        rw [hq, ih r (b ++ ops) s hsz]
        have hplan : levelPlan (OpTree.modifyTable tn sc ops :: r) = levelPlan r := by
          simp [levelPlan, levelLeaves]
        rw [hplan]
        simp [levelChildren, childrenOf, List.append_assoc]

/-- The state-threading loop is the sequential application of the
flattened, transformed plan. -/
theorem migLoop_eq_applyOps_aux (ap : Operation → σ → Except String σ) :
    ∀ (n : Nat) (q : List OpTree) (s : σ), forestSize q ≤ n →
      migLoop ap false q s = applyOps ap (planOf q) s := by
  intro n
  induction n with
  | zero =>
    intro q s h
    cases q with
    | nil => simp [migLoop_nil, planOf, flattenLoop_nil, applyOps]
    | cons t r =>
      exfalso
      have := treeSize_pos t
      simp [forestSize] at h
      omega
  | succ n ih =>
    intro q s h
    cases q with
    | nil => simp [migLoop_nil, planOf, flattenLoop_nil, applyOps]
    | cons t r =>
      have hshift := migLoop_shift ap (forestSize (t :: r)) (t :: r) [] s
        (by simp [forestSize])
      simp only [List.append_nil] at hshift
      rw [hshift]
      have hplan : planOf (t :: r) =
          levelPlan (t :: r) ++ planOf (levelChildren (t :: r)) := by
        simp only [planOf, levelPlan]
        rw [flatten_levels (t :: r), List.flatMap_append]
      rw [hplan, applyOps_append]
      have hlt := forestSize_levelChildren_lt t r
      cases applyOps ap (levelPlan (t :: r)) s with
      | ok s2 =>
        simp only [andThen]
        simpa using ih (levelChildren (t :: r)) s2 (by omega)
      | error e => simp [andThen]

theorem migLoop_eq_applyOps (ap : Operation → σ → Except String σ)
    (q : List OpTree) (s : σ) :
    migLoop ap false q s = applyOps ap (planOf q) s :=
  migLoop_eq_applyOps_aux ap (forestSize q) q s (Nat.le_refl _)

theorem dialectOfUrl_sync (env : List (String × String)) :
    dialectOfUrl (get_database_url env false) = "postgresql" := rfl

theorem dialectOfUrl_async (env : List (String × String)) :
    dialectOfUrl (get_database_url env true) = "postgresql" := rfl

theorem use_batch_false (env : List (String × String)) : use_batch env = false := by
  simp [use_batch, dialectOfUrl_sync]

/-- An empty root container flattens to the empty plan. -/
theorem flatten_empty_root (tree : OpTree) (h : is_empty tree = true) :
    (flattenLoop false [tree]).1 = [] := by
  cases tree with
  | group l =>
    simp [is_empty, List.isEmpty_iff] at h
    subst h
    simp [flattenLoop_group, flattenLoop_nil]
  | modifyTable tn sc l =>
    simp [is_empty, List.isEmpty_iff] at h
    subst h
    simp [flattenLoop_mt_false, flattenLoop_nil]
  | leaf op => simp [is_empty] at h

theorem find_self_col (l : List ColDef) (hnd : (l.map ColDef.name).Nodup)
    (c : ColDef) (hc : c ∈ l) :
    l.find? (fun lc => lc.name == c.name) = some c := by
  induction l with
  | nil => simp at hc
  | cons a r ih =>
    simp only [List.map_cons, List.nodup_cons] at hnd
    rcases List.mem_cons.mp hc with hca | hcr
    · subst hca
      simp [List.find?]
    · have hne : (a.name == c.name) = false := by
        by_contra hx
        have : a.name = c.name := by
          cases hxx : (a.name == c.name) with
          | false => exact absurd hxx hx
          | true => exact beq_iff_eq.mp hxx
        exact hnd.1 (this ▸ List.mem_map_of_mem ColDef.name hcr)
      simp [List.find?, hne]
      exact ih hnd.2 hcr

theorem find_self_table (l : List TableDef) (hnd : (l.map TableDef.name).Nodup)
    (t : TableDef) (ht : t ∈ l) :
    l.find? (fun lt => lt.name == t.name) = some t := by
  induction l with
  | nil => simp at ht
  | cons a r ih =>
    simp only [List.map_cons, List.nodup_cons] at hnd
    rcases List.mem_cons.mp ht with hta | htr
    · subst hta
      simp [List.find?]
    · have hne : (a.name == t.name) = false := by
        by_contra hx
        have : a.name = t.name := by
          cases hxx : (a.name == t.name) with
          | false => exact absurd hxx hx
          | true => exact beq_iff_eq.mp hxx
        exact hnd.1 (this ▸ List.mem_map_of_mem TableDef.name htr)
      simp [List.find?, hne]
      exact ih hnd.2 htr

/-- Comparing a (name-unique) column list against itself yields no
operation. -/
theorem diffColumns_self (table : String) (l : List ColDef)
    (hnd : (l.map ColDef.name).Nodup) :
    diffColumns table l l = [] := by
  simp only [diffColumns]
  have hadds : ∀ c ∈ l, ¬((l.find? (fun lc => lc.name == c.name)).isNone = true) := by
    intro c hc
    rw [find_self_col l hnd c hc]
    simp
  have halters : ∀ c ∈ l,
      (match l.find? (fun lc => lc.name == c.name) with
        | some lc =>
          if lc.ctype == c.ctype then none
          else some (Operation.alterColumn (mkAlterTypeOp table c.name lc.ctype c.ctype))
        | none => none) = (none : Option Operation) := by
    intro c hc
    rw [find_self_col l hnd c hc]
    simp
  rw [List.filter_eq_nil_iff.mpr hadds, List.filterMap_eq_nil_iff.mpr halters]
  simp

/-- Diffing a (name-unique) schema against itself yields the empty
operation tree. -/
theorem produceMigrations_self (declared : List TableDef)
    (hts : (declared.map TableDef.name).Nodup)
    (hcols : ∀ t ∈ declared, (t.cols.map ColDef.name).Nodup) :
    produceMigrations declared declared = OpTree.group [] := by
  simp only [produceMigrations]
  congr 1
  apply List.filterMap_eq_nil_iff.mpr
  intro t ht
  rw [find_self_table declared hts t ht]
  simp [diffColumns_self t.name t.cols (hcols t ht)]

theorem update_schema_body_eq (ap : Operation → σ → Except String σ)
    (tree : OpTree) (s0 : σ) :
    (if is_empty tree then Except.ok s0 else migLoop ap false [tree] s0) =
      applyOps ap (planOf [tree]) s0 := by
  by_cases h : is_empty tree = true
  · rw [if_pos h]
    rw [planOf, flatten_empty_root tree h]
    simp [applyOps]
  · rw [if_neg (by simpa using h)]
    exact migLoop_eq_applyOps ap [tree] s0

/-- C1: for every migration run, the executor opens exactly one
administrative transaction, applies the operations of the flattened plan
in plan order, and on success commits exactly once; if applying any
operation fails, the entire transaction is rolled back (the database
state is restored to its pre-transaction value, so no operation of the
plan remains applied), the failure is recorded, and startup continues
without re-raising. -/
theorem c1_migration_transactional (ap : Operation → σ → Except String σ)
    (env : List (String × String)) (tree : OpTree) (s0 : σ) :
    (update_schema ap (use_batch env) tree s0).begins = 1 ∧
    (update_schema ap (use_batch env) tree s0).raised = false ∧
    ((∃ s, applyOps ap (planOf [tree]) s0 = Except.ok s ∧
        update_schema ap (use_batch env) tree s0 =
          { dbState := s, begins := 1, commits := 1, rollbacks := 0
            loggedError := none, raised := false }) ∨
     (∃ e, applyOps ap (planOf [tree]) s0 = Except.error e ∧
        update_schema ap (use_batch env) tree s0 =
          { dbState := s0, begins := 1, commits := 0, rollbacks := 1
            loggedError := some e, raised := false })) := by
  rw [use_batch_false env]
  simp only [update_schema, update_schema_body_eq]
  cases hres : applyOps ap (planOf [tree]) s0 with
  | ok s => exact ⟨rfl, rfl, Or.inl ⟨s, rfl, rfl⟩⟩
  | error e => exact ⟨rfl, rfl, Or.inr ⟨e, rfl, rfl⟩⟩

/-- C2 (code bug): the claim says the first construction of `GenericDAL`
runs the pipeline and sets the class-level `initialized` flag, and every
later construction skips the pipeline.  In the code, the first
construction calls the undefined `GenericDAL.__init_cron` after the
pipeline, so it raises `AttributeError` before `initialized = True`
executes: the flag stays `False` and a second construction runs the
pipeline again (two runs, flag still unset). -/
theorem c2_pipeline_reruns_after_attribute_error :
    genericDAL_init { initialized := false, pipelineRuns := 0 } =
      CtorResult.attributeError "_GenericDAL__init_cron"
        { initialized := false, pipelineRuns := 1 } ∧
    genericDAL_init { initialized := false, pipelineRuns := 1 } =
      CtorResult.attributeError "_GenericDAL__init_cron"
        { initialized := false, pipelineRuns := 2 } := by
  constructor <;> rfl

/-- C3: for every `AlterColumnType` whose old type is text and whose new
type is integer, the transformer returns a single operation carrying the
casting expression `textToIntUsing`, whose value semantics strip every
non-digit character, map an empty result to zero, then cast to integer —
so `"12a"`, `""`, `"007"` are coerced to `12`, `0`, `7`. -/
theorem c3_text_to_integer (op : AlterColumnOp)
    (h1 : op.modify_type = some SqlType.integerT)
    (h2 : op.existing_type = some SqlType.textT) :
    add_using_clause op = Sum.inl
      { table_name := op.table_name
        column_name := op.column_name
        schema := op.schema
        existing_type := op.existing_type
        existing_server_default := op.existing_server_default
        existing_nullable := op.existing_nullable
        existing_comment := op.existing_comment
        modify_type := op.modify_type
        modify_server_default := PyVal.pyFalse
        postgresql_using := some (textToIntUsing op.column_name) } ∧
    (∀ s, evalTextToIntCast s =
      (if regexpReplaceNonDigits s = "" then 0
       else digitsToNat (regexpReplaceNonDigits s))) ∧
    evalTextToIntCast "12a" = 12 ∧
    evalTextToIntCast "" = 0 ∧
    evalTextToIntCast "007" = 7 := by
  refine ⟨?_, ?_, by decide, by decide, by decide⟩
  · simp [add_using_clause, isIntegerType, isTextType, h1, h2]
  · intro s
    simp only [evalTextToIntCast, coalesceStr, nullifEmpty]
    by_cases h : regexpReplaceNonDigits s = ""
    · simp [h, digitsToNat]
    · simp [h]

/-- Sample text→integer alteration (declared column became `Integer`,
live column is `Text`). -/
def exTextToIntOp : AlterColumnOp :=
  { table_name := "packets"
    column_name := "size"
    schema := none
    existing_type := some SqlType.textT
    existing_server_default := PyVal.pyFalse
    existing_nullable := some true
    existing_comment := PyVal.pyFalse
    modify_type := some SqlType.integerT
    modify_server_default := PyVal.pyFalse
    postgresql_using := none }

theorem c3_text_to_integer_witness :
    add_using_clause exTextToIntOp = Sum.inl
      { table_name := "packets"
        column_name := "size"
        schema := none
        existing_type := some SqlType.textT
        existing_server_default := PyVal.pyFalse
        existing_nullable := some true
        existing_comment := PyVal.pyFalse
        modify_type := some SqlType.integerT
        modify_server_default := PyVal.pyFalse
        postgresql_using := some (textToIntUsing "size") } ∧
    evalTextToIntCast "12a" = 12 := by
  have h := c3_text_to_integer exTextToIntOp rfl rfl
  exact ⟨h.1, h.2.2.1⟩

/-- C4: for every `AlterColumnType` whose old type is integer and whose
new type is UUID, the transformer returns exactly three operations in
order — drop the existing default, alter the type with the
`intToUuidUsing` casting expression (whose semantics produce the fixed
prefix `00000000-0000-0000-0000-` followed by the 12-digit zero-padded
hexadecimal representation, so `255` yields
`00000000-0000-0000-0000-0000000000ff`), then set a server default
generating a fresh random UUID. -/
theorem c4_integer_to_uuid (op : AlterColumnOp)
    (h1 : op.modify_type = some SqlType.uuidT)
    (h2 : op.existing_type = some SqlType.integerT) :
    add_using_clause op = Sum.inr
      [ { table_name := op.table_name
          column_name := op.column_name
          schema := none
          existing_type := op.existing_type
          existing_server_default := PyVal.pyTrue
          existing_nullable := none
          existing_comment := PyVal.pyFalse
          modify_type := none
          modify_server_default := PyVal.pyNone
          postgresql_using := none },
        { table_name := op.table_name
          column_name := op.column_name
          schema := none
          existing_type := op.existing_type
          existing_server_default := PyVal.pyFalse
          existing_nullable := none
          existing_comment := PyVal.pyFalse
          modify_type := op.modify_type
          modify_server_default := PyVal.pyFalse
          postgresql_using := some (intToUuidUsing op.column_name) },
        { table_name := op.table_name
          column_name := op.column_name
          schema := none
          existing_type := op.modify_type
          existing_server_default := PyVal.pyNone
          existing_nullable := none
          existing_comment := PyVal.pyFalse
          modify_type := none
          modify_server_default := PyVal.sqlText "gen_random_uuid()"
          postgresql_using := none } ] ∧
    (∀ n, evalIntToUuidCast n =
      "00000000-0000-0000-0000-" ++ lpad (to_hex n) 12 (Char.ofNat 48)) ∧
    evalIntToUuidCast 255 = "00000000-0000-0000-0000-0000000000ff" := by
  refine ⟨?_, fun n => rfl, by decide⟩
  simp [add_using_clause, isIntegerType, isTextType, isUuidType, h1, h2]

/-- Sample integer→UUID alteration (declared column became `UUID`, live
column is `Integer`). -/
def exIntToUuidOp : AlterColumnOp :=
  { table_name := "sessions"
    column_name := "id"
    schema := none
    existing_type := some SqlType.integerT
    existing_server_default := PyVal.pyFalse
    existing_nullable := some false
    existing_comment := PyVal.pyFalse
    modify_type := some SqlType.uuidT
    modify_server_default := PyVal.pyFalse
    postgresql_using := none }

theorem c4_integer_to_uuid_witness :
    add_using_clause exIntToUuidOp = Sum.inr
      [ { table_name := "sessions"
          column_name := "id"
          schema := none
          existing_type := some SqlType.integerT
          existing_server_default := PyVal.pyTrue
          existing_nullable := none
          existing_comment := PyVal.pyFalse
          modify_type := none
          modify_server_default := PyVal.pyNone
          postgresql_using := none },
        { table_name := "sessions"
          column_name := "id"
          schema := none
          existing_type := some SqlType.integerT
          existing_server_default := PyVal.pyFalse
          existing_nullable := none
          existing_comment := PyVal.pyFalse
          modify_type := some SqlType.uuidT
          modify_server_default := PyVal.pyFalse
          postgresql_using := some (intToUuidUsing "id") },
        { table_name := "sessions"
          column_name := "id"
          schema := none
          existing_type := some SqlType.uuidT
          existing_server_default := PyVal.pyNone
          existing_nullable := none
          existing_comment := PyVal.pyFalse
          modify_type := none
          modify_server_default := PyVal.sqlText "gen_random_uuid()"
          postgresql_using := none } ] ∧
    evalIntToUuidCast 255 = "00000000-0000-0000-0000-0000000000ff" := by
  have h := c4_integer_to_uuid exIntToUuidOp rfl rfl
  exact ⟨h.1, h.2.2⟩

/-- A sample declared schema (one table, one column). -/
def exSchema : List TableDef :=
  [ { name := "packet", cols := [ { name := "id", ctype := SqlType.uuidT } ] } ]

/-- C5 counterexample: when the live and declared schemas are
structurally identical, the diff does produce an empty `OperationTree`,
but — contrary to the claim — the migration step still opens a
transaction against the administrative connection: `conn.begin()` runs
at line 162 of `database.py`, before the diff is even computed, so the
begin count of the run is `1`, not `0` (the empty transaction is then
committed). -/
theorem c5_counterexample :
    produceMigrations exSchema exSchema = OpTree.group [] ∧
    (update_schema (fun _ s => Except.ok s) (use_batch [])
        (produceMigrations exSchema exSchema) (0 : Nat)).begins = 1 ∧
    (update_schema (fun _ s => Except.ok s) (use_batch [])
        (produceMigrations exSchema exSchema) (0 : Nat)).commits = 1 := by
  exact ⟨rfl, rfl, rfl⟩

/-- C5 as amended: if the live and declared schemas are structurally
identical (name-unique tables and columns), the diff produces an empty
`OperationTree` and the executor invokes no operation — the database
state is returned unchanged and no failure is recorded, for an arbitrary
(even always-failing) DDL semantics — but the administrative transaction
is still opened once and committed once. -/
theorem c5_empty_diff_still_begins (declared : List TableDef)
    (ap : Operation → σ → Except String σ) (env : List (String × String)) (s0 : σ)
    (hts : (declared.map TableDef.name).Nodup)
    (hcols : ∀ t ∈ declared, (t.cols.map ColDef.name).Nodup) :
    produceMigrations declared declared = OpTree.group [] ∧
    update_schema ap (use_batch env) (produceMigrations declared declared) s0 =
      { dbState := s0, begins := 1, commits := 1, rollbacks := 0
        loggedError := none, raised := false } := by
  have hm := produceMigrations_self declared hts hcols
  refine ⟨hm, ?_⟩
  rw [hm, use_batch_false env]
  rfl

theorem c5_empty_diff_still_begins_witness :
    produceMigrations exSchema exSchema = OpTree.group [] ∧
    update_schema (fun _ (_ : Nat) => Except.error "forced failure") (use_batch [])
        (produceMigrations exSchema exSchema) 0 =
      { dbState := 0, begins := 1, commits := 1, rollbacks := 0
        loggedError := none, raised := false } := by
  exact c5_empty_diff_still_begins exSchema (fun _ _ => Except.error "forced failure")
    [] 0 (by decide) (by decide)

/-- C6: on every `OperationTree`, the executor's mutable work-queue
flattening loop (pop from the front, append children of composite nodes
to the back), run with this program's `use_batch` value, emits the same
ordered list of leaf operations as the pure, side-effect-free
breadth-first traversal `bfs`. -/
theorem c6_flatten_is_bfs (env : List (String × String)) (t : OpTree) :
    (flattenLoop (use_batch env) [t]).1 = bfs [t] := by
  rw [use_batch_false env]
  exact flatten_eq_bfs_aux (forestSize [t]) [t] (Nat.le_refl _)

/-- C7: for every `AlterColumnType` operation whose (old, new) type pair
is neither (text, integer) nor (integer, UUID), the transformer is the
identity — it returns the input operation unmodified (in particular it
attaches no casting expression); being a total pure function, it
performs no I/O and never fails. -/
theorem c7_other_pairs_identity (op : AlterColumnOp)
    (h1 : (isIntegerType op.modify_type && isTextType op.existing_type) = false)
    (h2 : (isUuidType op.modify_type && isIntegerType op.existing_type) = false) :
    add_using_clause op = Sum.inl op := by
  simp [add_using_clause, h1, h2]

/-- Sample pass-through alteration (integer → text is not a rewritten
pair). -/
def exPassThroughOp : AlterColumnOp :=
  { table_name := "packets"
    column_name := "label"
    schema := none
    existing_type := some SqlType.integerT
    existing_server_default := PyVal.pyFalse
    existing_nullable := some true
    existing_comment := PyVal.pyFalse
    modify_type := some SqlType.textT
    modify_server_default := PyVal.pyFalse
    postgresql_using := none }

theorem c7_other_pairs_identity_witness :
    add_using_clause exPassThroughOp = Sum.inl exPassThroughOp :=
  c7_other_pairs_identity exPassThroughOp (by decide) (by decide)

/-- C8: whenever the `initialized` flag is not yet set, constructing
`GenericDAL` looks up `_GenericDAL__init_cron` — an attribute defined
nowhere in the class — after running schema update and seeding, so the
constructor raises `AttributeError`, and the flag is never set to `True`
before the exception propagates. -/
theorem c8_init_cron_missing (st : DALClassState) (h : st.initialized = false) :
    genericDALAttributes.contains "_GenericDAL__init_cron" = false ∧
    genericDAL_init st = CtorResult.attributeError "_GenericDAL__init_cron"
      { initialized := false, pipelineRuns := st.pipelineRuns + 1 } := by
  refine ⟨by decide, ?_⟩
  simp [genericDAL_init, h]
  decide

theorem c8_init_cron_missing_witness :
    genericDALAttributes.contains "_GenericDAL__init_cron" = false ∧
    genericDAL_init { initialized := false, pipelineRuns := 0 } =
      CtorResult.attributeError "_GenericDAL__init_cron"
        { initialized := false, pipelineRuns := 1 } :=
  c8_init_cron_missing { initialized := false, pipelineRuns := 0 } rfl

/-- C9: whatever the environment variables and the `async_driver` flag,
`get_database_url` returns a URL whose scheme prefix is `postgresql`, so
the engine dialect is never `sqlite`, `use_batch` is always `False`, and
the `batch_alter_table` branch of the flattening loop runs zero times on
every queue. -/
theorem c9_batch_branch_unreachable (env : List (String × String))
    (flag : Bool) (q : List OpTree) :
    dialectOfUrl (get_database_url env flag) = "postgresql" ∧
    use_batch env = false ∧
    (flattenLoop (use_batch env) q).2 = 0 := by
  refine ⟨?_, use_batch_false env, ?_⟩
  · cases flag
    · exact dialectOfUrl_sync env
    · exact dialectOfUrl_async env
  · rw [use_batch_false env]
    exact flatten_count_zero_aux (forestSize q) q (Nat.le_refl _)

/-- C10: `remove` and `async_remove` return `True` whenever they return
at all — any failure of delete-and-commit surfaces as a raised error,
never as a `False` return value. -/
theorem c10_remove_returns_true
    (d : σ → Except String σ) (s s2 : σ) (b : Bool)
    (h1 : remove d s = Except.ok (s2, b))
    (d2 : τ → Except String τ) (s3 s4 : τ) (b2 : Bool)
    (h2 : async_remove d2 s3 = Except.ok (s4, b2)) :
    b = true ∧ b2 = true := by
  constructor
  · cases hd : d s with
    | ok x =>
      simp [remove, hd] at h1
      exact h1.2
    | error e => simp [remove, hd] at h1
  · cases hd : d2 s3 with
    | ok x =>
      simp [async_remove, hd] at h2
      exact h2.2
    | error e => simp [async_remove, hd] at h2

theorem c10_remove_returns_true_witness : true = true ∧ true = true :=
  c10_remove_returns_true (fun n : Nat => Except.ok n) 0 0 true rfl
    (fun n : Nat => Except.ok n) 0 0 true rfl

